import Mathlib

/-!
Verification of the Smart Scheduler calendar tools (`calendar_tools.py`).

Times are embedded as integers (minutes on a common axis); a Python
`datetime` used only for comparison/arithmetic is faithfully represented
this way because the source only compares, subtracts and takes `max` of
timezone-aware datetimes inside the algorithms modelled here.
-/

namespace Scheduler

/-! ### Availability engine: `find_available_slots` (calendar_tools.py, lines 230-252)

A returned slot dict `{"start": ..., "end": ..., "duration_minutes": ...}`
is embedded as a `Slot`; the `stop` field is the dict's `"end"` key
(`end` is a reserved word in Lean). `duration_minutes` records the value
the source writes into the dict, which is the function's argument, not
the slot's actual length. -/

structure Slot where
  start : Int
  stop : Int
  duration_minutes : Int
  deriving DecidableEq, Repr

/-- Embeds the sweep loop of `find_available_slots` (lines 236-250):
`search_start` is the cursor, `wE` is `search_end`, and each busy pair is
`(b_start, b_end)`. The emitted slot list follows the source's two
emission sites (inside the loop and the trailing emission after it). -/
def sweepSlots (d wE : Int) : Int → List (Int × Int) → List Slot
  | search_start, [] =>
      if wE > search_start ∧ wE - search_start ≥ d then
        [⟨search_start, wE, d⟩]
      else []
  | search_start, (b_start, b_end) :: rest =>
      (if b_start > search_start ∧ b_start - search_start ≥ d then
        [⟨search_start, b_start, d⟩]
      else []) ++ sweepSlots d wE (max search_start b_end) rest

/-- Embeds the slot computation of `find_available_slots` (lines 230-252):
the busy list is sorted by start ascending (`sorted(busy, key=lambda x: x[0])`,
a stable sort, mirrored by `List.mergeSort`) and then swept. -/
def find_available_slots (duration_minutes window_start window_end : Int)
    (busy : List (Int × Int)) : List Slot :=
  sweepSlots duration_minutes window_end window_start
    (busy.mergeSort (fun a b => decide (a.1 ≤ b.1)))

/-! ### Backend model, conflict check, event locator and confirmation gateway

The remote calendar store is embedded as a list of events; `list` is a pure
read returning the events overlapping the queried range (Google's
`timeMin`/`timeMax` semantics), `insert`/`update`/`delete` are the only
mutations. Event ids are backend-issued and assumed distinct. -/

structure CalEvent where
  id : Nat
  summary : String
  description : String
  start : Int
  stop : Int
  attendees : List String
  deriving DecidableEq, Repr

structure Backend where
  events : List CalEvent
  deriving DecidableEq, Repr

/-- Status discriminators of the structured results (`"status"` keys in the
source); `created` and `updated` stand for the success-with-backend-record
results, which carry an `id` instead of a `"status"` key. -/
inductive Status where
  | pending_confirmation
  | conflict_detected
  | no_events_found
  | multiple_events_found
  | deleted
  | created
  | updated
  deriving DecidableEq, Repr

/-- Lowercasing used for the case-insensitive comparisons (`str.lower()` on
the ASCII inputs in scope). -/
def lowerChars (s : String) : List Char := s.toList.map Char.toLower

structure AvailabilityResult where
  available : Bool
  conflicting_events : List CalEvent
  start_time : Int
  end_time : Int
  deriving DecidableEq, Repr

/-- Embeds `check_time_slot_availability` (lines 728-761): the backend is
queried for the requested range and each returned event is kept as a
conflict when `event_start_dt < requested_end and event_end_dt > requested_start`
(line 746); `available` is true iff no conflicts remain. -/
def check_time_slot_availability (b : Backend) (start_iso end_iso : Int) :
    AvailabilityResult :=
  let conflicting := b.events.filter fun e =>
    decide (e.start < end_iso) && decide (e.stop > start_iso)
  ⟨conflicting.isEmpty, conflicting, start_iso, end_iso⟩

/-- Embeds `create_calendar_event` (lines 303-348): with `confirmed=False`
the conflict check may block with `conflict_detected`, otherwise the call
returns `pending_confirmation`; only the `confirmed=True` branch inserts.
`newId` is the id the backend issues to the created record. -/
def create_calendar_event (b : Backend) (start_iso end_iso : Int)
    (summary description : String) (attendees : List String)
    (confirmed skip_conflict_check : Bool) (newId : Nat) : Backend × Status :=
  if !confirmed then
    if !skip_conflict_check && !(check_time_slot_availability b start_iso end_iso).available then
      (b, .conflict_detected)
    else
      (b, .pending_confirmation)
  else
    ({ events := b.events ++ [⟨newId, summary, description, start_iso, end_iso, attendees⟩] },
      .created)

/-- Python's contiguous-substring containment `pat in s` on character lists. -/
def substrIn (pat : List Char) : List Char → Bool
  | [] => pat.isEmpty
  | c :: rest => pat.isPrefixOf (c :: rest) || substrIn pat rest

/-- The bidirectional case-insensitive substring test of
`find_events_by_name_and_date` (line 940):
`event_name_lower in event_summary or event_summary in event_name_lower`. -/
def nameMatches (event_name summary : String) : Bool :=
  substrIn (lowerChars event_name) (lowerChars summary) ||
    substrIn (lowerChars summary) (lowerChars event_name)

/-- The backend `events().list(timeMin, timeMax)` read: events overlapping
the closed query range, in stored (start-ascending) order. -/
def backendListEvents (b : Backend) (timeMin timeMax : Int) : List CalEvent :=
  b.events.filter fun e => decide (timeMin < e.stop) && decide (e.start < timeMax)

/-- Embeds `find_events_by_name_and_date` (lines 919-949): list the events
in the resolved search window, then keep those whose title matches the
query under `nameMatches`. The window `[timeMin, timeMax]` is the one the
date argument resolves to (date resolution is modelled separately). -/
def find_events_by_name_and_date (b : Backend) (event_name : String)
    (timeMin timeMax : Int) : List CalEvent :=
  (backendListEvents b timeMin timeMax).filter fun e => nameMatches event_name e.summary

/-- Embeds `delete_event_by_name_and_date` (lines 994-1075): branch on the
cardinality of the located events; only the confirmed singleton case calls
the backend delete. -/
def delete_event_by_name_and_date (b : Backend) (event_name : String)
    (timeMin timeMax : Int) (confirmed : Bool) : Backend × Status :=
  if !confirmed then
    match find_events_by_name_and_date b event_name timeMin timeMax with
    | [] => (b, .no_events_found)
    | [_] => (b, .pending_confirmation)
    | _ => (b, .multiple_events_found)
  else
    match find_events_by_name_and_date b event_name timeMin timeMax with
    | [] => (b, .no_events_found)
    | [e] => ({ events := b.events.filter fun x => !(x.id == e.id) }, .deleted)
    | _ => (b, .multiple_events_found)

/-- The read-modify-write merge of `update_event_by_name_and_date`
(lines 1208-1218): only fields supplied (non-`None`) overwrite the stored
event's fields. -/
def applyUpdate (e : CalEvent) (start_iso end_iso : Option Int)
    (summary description : Option String) (attendees : Option (List String)) : CalEvent :=
  { e with
    start := start_iso.getD e.start
    stop := end_iso.getD e.stop
    summary := summary.getD e.summary
    description := description.getD e.description
    attendees := attendees.getD e.attendees }

/-- Embeds `update_event_by_name_and_date` (lines 1115-1232): branch on the
cardinality of the located events; only the confirmed singleton case calls
the backend update, merging just the supplied fields. -/
def update_event_by_name_and_date (b : Backend) (event_name : String)
    (timeMin timeMax : Int) (start_iso end_iso : Option Int)
    (summary description : Option String) (attendees : Option (List String))
    (confirmed : Bool) : Backend × Status :=
  if !confirmed then
    match find_events_by_name_and_date b event_name timeMin timeMax with
    | [] => (b, .no_events_found)
    | [_] => (b, .pending_confirmation)
    | _ => (b, .multiple_events_found)
  else
    match find_events_by_name_and_date b event_name timeMin timeMax with
    | [] => (b, .no_events_found)
    | [e] =>
      ({ events := b.events.map fun x =>
          if x.id == e.id then applyUpdate x start_iso end_iso summary description attendees
          else x }, .updated)
    | _ => (b, .multiple_events_found)

/-- The two-event scenario of the locator-cardinality property. -/
def teamMeeting : CalEvent := ⟨1, "Team Meeting", "", 600, 660, []⟩

def teamMeetingPrep : CalEvent := ⟨2, "Team Meeting Prep", "", 700, 760, []⟩

def teamBackend : Backend := ⟨[teamMeeting, teamMeetingPrep]⟩

/-! ### Time parsing: `parse_time_from_natural_language` (lines 1328-1362) -/

/-- Whitespace for Python's `str.strip()` and the regex class `\s` (the
characters occurring in inputs in scope). -/
def isPySpace (c : Char) : Bool :=
  c = ' ' || c = '\t' || c = '\n' || c = '\r'

def pyStrip (l : List Char) : List Char :=
  ((l.dropWhile isPySpace).reverse.dropWhile isPySpace).reverse

def digitsToNat (l : List Char) : Nat :=
  l.foldl (fun n c => n * 10 + (c.toNat - '0'.toNat)) 0

/-- The normalized input `time_str.strip().lower()` (line 1329). -/
def normTime (s : String) : List Char := (pyStrip s.toList).map Char.toLower

/-- The 24-hour pattern of line 1332 with the subsequent
`map(int, time_str.split(':'))` extraction: one or two hour digits, a
colon, two minute digits, nothing else. -/
def match24 : List Char → Option (Nat × Nat)
  | [h1, ':', m1, m2] =>
      if h1.isDigit && m1.isDigit && m2.isDigit then
        some (digitsToNat [h1], digitsToNat [m1, m2])
      else none
  | [h1, h2, ':', m1, m2] =>
      if h1.isDigit && h2.isDigit && m1.isDigit && m2.isDigit then
        some (digitsToNat [h1, h2], digitsToNat [m1, m2])
      else none
  | _ => none

/-- The tail of the 12-hour pattern of line 1338: optional whitespace then
`am` or `pm` then end of input; `some true` means pm. -/
def match12Tail (l : List Char) : Option Bool :=
  match l.dropWhile isPySpace with
  | ['a', 'm'] => some false
  | ['p', 'm'] => some true
  | _ => none

/-- The 12-hour pattern of line 1338: one or two hour digits, an optional
colon-and-two-minute-digits group, whitespace, the period. Returns the
hour value, the optional minute group's value and the period. -/
def match12 (l : List Char) : Option (Nat × Option Nat × Bool) :=
  let hd := l.takeWhile Char.isDigit
  if hd.length = 0 || 2 < hd.length then none
  else
    match l.dropWhile Char.isDigit with
    | ':' :: m1 :: m2 :: r =>
        if m1.isDigit && m2.isDigit then
          match match12Tail r with
          | some pm => some (digitsToNat hd, some (digitsToNat [m1, m2]), pm)
          | none => none
        else none
    | ':' :: _ => none
    | r =>
        match match12Tail r with
        | some pm => some (digitsToNat hd, none, pm)
        | none => none

/-- The `ValueError(f"Invalid time format: {time_str}")` raised by the time
parser, carrying the normalized input. -/
inductive TimeError where
  | invalidTimeFormat (input : List Char)
  deriving DecidableEq, Repr

/-- The 12-to-24-hour conversion block (lines 1351-1354). -/
def convert12 (hour : Nat) (isPm : Bool) : Nat :=
  if isPm ∧ hour ≠ 12 then hour + 12
  else if ¬ isPm ∧ hour = 12 then 0
  else hour

/-- Embeds the time-of-day parsing of `parse_time_from_natural_language`
(lines 1329-1354); the result is the `(hour, minute)` pair the source
installs into the target date with `target_date.replace(hour=..., minute=...)`,
so equal results on the same date mean equal instants. -/
def parse_time_nl (time_str : String) : Except TimeError (Nat × Nat) :=
  let t := normTime time_str
  match match24 t with
  | some (hour, minute) =>
      if 23 < hour ∨ 59 < minute then .error (.invalidTimeFormat t)
      else .ok (hour, minute)
  | none =>
      match match12 t with
      | none => .error (.invalidTimeFormat t)
      | some (hour, minuteOpt, pm) =>
          let minute := minuteOpt.getD 0
          if hour < 1 ∨ 12 < hour ∨ 59 < minute then .error (.invalidTimeFormat t)
          else .ok (convert12 hour pm, minute)

/-! ### Date resolution: the inner `parse_date_string` helpers -/

def weekdays : List (List Char) :=
  ["monday".toList, "tuesday".toList, "wednesday".toList, "thursday".toList,
    "friday".toList, "saturday".toList, "sunday".toList]

def months : List (List Char) :=
  ["january".toList, "february".toList, "march".toList, "april".toList,
    "may".toList, "june".toList, "july".toList, "august".toList,
    "september".toList, "october".toList, "november".toList, "december".toList]

/-- Python's `str.replace(pat, rep)` (all occurrences, left to right) on
character lists; the fuel is the input length, enough because every step
consumes at least one character. -/
def listReplaceAux (pat rep : List Char) : Nat → List Char → List Char
  | 0, l => l
  | _ + 1, [] => []
  | fuel + 1, c :: rest =>
      if !pat.isEmpty && pat.isPrefixOf (c :: rest) then
        rep ++ listReplaceAux pat rep fuel ((c :: rest).drop pat.length)
      else
        c :: listReplaceAux pat rep fuel rest

def listReplace (pat rep l : List Char) : List Char := listReplaceAux pat rep l.length l

/-- One position of the month regex search
`(january|...|december)\s+(\d{1,2})`: a month-name alternative matching at
this position, then at least one whitespace, then one or two digits
(greedy). Returns (month number, day value). -/
def matchMonthAt (l : List Char) : Option (Nat × Nat) :=
  (List.findIdx? (fun m => m.isPrefixOf l) months).bind fun idx =>
    let m := months.getD idx []
    let rest := l.drop m.length
    let sp := rest.takeWhile isPySpace
    if sp.length = 0 then none
    else
      let ds := (rest.drop sp.length).takeWhile Char.isDigit
      if ds.length = 0 then none
      else some (idx + 1, digitsToNat (ds.take 2))

/-- `re.search` of the month pattern: leftmost matching position. -/
def searchMonth : List Char → Option (Nat × Nat)
  | [] => none
  | c :: rest =>
      match matchMonthAt (c :: rest) with
      | some r => some r
      | none => searchMonth rest

/-- How a date phrase is resolved: the ISO branch and the month-name branch
produce absolute datetimes, the relative branches produce a day offset from
`now`, and unparseable input yields `(None, None)`. -/
inductive DateResolution where
  | isoBranch
  | offset (days : Int)
  | monthDay (month day : Nat)
  | unparsed
  deriving DecidableEq, Repr

/-- Embeds the inner `parse_date_string` of `list_calendar_events`
(lines 531-622), identical to the one in `find_events_by_name_and_date`
(lines 801-892). `todayWd` is `now.weekday()` (0 = Monday); Python's `%`
on possibly negative operands is `Int.emod`, which agrees with it for the
positive modulus 7. -/
def parse_date_string_listcal (todayWd : Nat) (date_str : String) : DateResolution :=
  if date_str.toList = [] then .unparsed
  else if 'T' ∈ date_str.toList ∧ 10 ≤ date_str.toList.length then .isoBranch
  else
    let p := lowerChars date_str
    if p = "today".toList then .offset 0
    else if p = "tomorrow".toList then .offset 1
    else if p = "yesterday".toList then .offset (-1)
    else if p ∈ weekdays then
      let dayIdx := weekdays.indexOf p
      if dayIdx = todayWd then .offset 0
      else
        let daysAhead := ((dayIdx : Int) - (todayWd : Int)) % 7
        .offset (if daysAhead = 0 then 7 else daysAhead)
    else
      let nextBranch :=
        if "next ".toList.isPrefixOf p then
          let dayName := listReplace "next ".toList [] p
          if dayName ∈ weekdays then
            some (((weekdays.indexOf dayName : Int) - (todayWd : Int)) % 7 + 7)
          else none
        else none
      match nextBranch with
      | some k => .offset k
      | none =>
        let thisBranch :=
          if "this ".toList.isPrefixOf p then
            let dayName := listReplace "this ".toList [] p
            if dayName ∈ weekdays then
              let daysAhead := ((weekdays.indexOf dayName : Int) - (todayWd : Int)) % 7
              some (if daysAhead = 0 then (7 : Int) else daysAhead)
            else none
          else none
        match thisBranch with
        | some k => .offset k
        | none =>
          match searchMonth p with
          | some (m, d) => .monthDay m d
          | none => .unparsed

/-- Embeds the inner `parse_date_string` of
`parse_time_from_natural_language` (lines 1260-1316). Unlike the
listing/locator variant it has no ISO branch and no "this <weekday>"
branch. -/
def parse_date_string_timefn (todayWd : Nat) (date_str : String) : DateResolution :=
  if date_str.toList = [] then .unparsed
  else
    let p := lowerChars date_str
    if p = "today".toList then .offset 0
    else if p = "tomorrow".toList then .offset 1
    else if p = "yesterday".toList then .offset (-1)
    else if p ∈ weekdays then
      let dayIdx := weekdays.indexOf p
      if dayIdx = todayWd then .offset 0
      else
        let daysAhead := ((dayIdx : Int) - (todayWd : Int)) % 7
        .offset (if daysAhead = 0 then 7 else daysAhead)
    else
      let nextBranch :=
        if "next ".toList.isPrefixOf p then
          let dayName := listReplace "next ".toList [] p
          if dayName ∈ weekdays then
            some (((weekdays.indexOf dayName : Int) - (todayWd : Int)) % 7 + 7)
          else none
        else none
      match nextBranch with
      | some k => .offset k
      | none =>
        match searchMonth p with
        | some (m, d) => .monthDay m d
        | none => .unparsed

/-- The target-date fallback of `parse_time_from_natural_language`
(lines 1318-1326): an unparseable date phrase falls back to today. Returns
the offset in days from `now` of the chosen target date for relatively
resolved phrases (`none` for the absolute ISO/month branches). -/
def parse_time_target_days_ahead (todayWd : Nat) (date_str : String) : Option Int :=
  match parse_date_string_timefn todayWd date_str with
  | .offset k => some k
  | .unparsed => some 0
  | _ => none

/-! ### Resilient backend call: `safe_api_call` (lines 100-119) -/

/-- The transient-transport test of line 107:
`"extra_headers" in error_msg or "websocket" in error_msg` over the
lowercased error text. -/
def isTransientError (msg : String) : Bool :=
  substrIn "extra_headers".toList (lowerChars msg) ||
    substrIn "websocket".toList (lowerChars msg)

/-- Outcome of `safe_api_call`: a returned value, the structured
`connection_error` dict, a re-raised exception carrying the error text, or
Python's implicit `None` after an empty loop (unreachable when
`max_retries > 0`). -/
inductive ApiOutcome (α : Type) where
  | ok (v : α)
  | connectionError
  | raised (msg : String)
  | nothing
  deriving DecidableEq, Repr

/-- Embeds the retry loop of `safe_api_call` (lines 102-119): `f k` is the
outcome of the k-th execution of `func`, `fuel` is the number of loop
iterations remaining (`maxRetries - attempt`). Returns the final outcome,
the number of attempts performed, and the back-off delays slept
(`delay * (attempt + 1)`, line 109) in order. -/
def safe_api_call_loop {α : Type} (f : Nat → Except String α) (maxRetries : Nat)
    (delay : ℚ) : Nat → Nat → ApiOutcome α × Nat × List ℚ
  | _, 0 => (.nothing, 0, [])
  | attempt, fuel + 1 =>
      match f attempt with
      | .ok v => (.ok v, 1, [])
      | .error e =>
          if isTransientError e then
            if attempt < maxRetries - 1 then
              let r := safe_api_call_loop f maxRetries delay (attempt + 1) fuel
              (r.1, r.2.1 + 1, delay * ((attempt : ℚ) + 1) :: r.2.2)
            else (.connectionError, 1, [])
          else (.raised e, 1, [])

def safe_api_call {α : Type} (f : Nat → Except String α) (maxRetries : Nat := 3)
    (delay : ℚ := 1) : ApiOutcome α × Nat × List ℚ :=
  safe_api_call_loop f maxRetries delay 0 maxRetries

/-! ### Time-preference window rewrite in `find_available_slots` (lines 186-195) -/

/-- The fields of a Python `datetime` that `replace(hour=...)` touches or
preserves; the date part is abstracted to a day index. -/
structure PyDateTime where
  day : Int
  hour : Nat
  minute : Nat
  second : Nat
  microsecond : Nat
  deriving DecidableEq, Repr

/-- `dt.replace(hour=h)`: only the hour field changes. -/
def PyDateTime.replaceHour (t : PyDateTime) (h : Nat) : PyDateTime := { t with hour := h }

/-- Embeds the `time_pref` handling of `find_available_slots`
(lines 186-195): when the lowered preference contains "morning" the window
start's hour is set to 8 and the end becomes the new start with hour 12;
analogously afternoon (12 to 17) and evening (17 to 20). -/
def apply_time_pref (time_pref : String) (window_start window_end : PyDateTime) :
    PyDateTime × PyDateTime :=
  let p := lowerChars time_pref
  if substrIn "morning".toList p then
    let ws := window_start.replaceHour 8
    (ws, ws.replaceHour 12)
  else if substrIn "afternoon".toList p then
    let ws := window_start.replaceHour 12
    (ws, ws.replaceHour 17)
  else if substrIn "evening".toList p then
    let ws := window_start.replaceHour 17
    (ws, ws.replaceHour 20)
  else (window_start, window_end)

end Scheduler

namespace Scheduler

theorem sweepSlots_mem_bounds (d wE : Int) :
    ∀ (busy : List (Int × Int)) (s : Int) (t : Slot),
      t ∈ sweepSlots d wE s busy →
      s ≤ t.start ∧ t.start < t.stop ∧ d ≤ t.stop - t.start ∧ t.duration_minutes = d := by
  intro busy
  induction busy with
  | nil =>
    intro s t ht
    simp only [sweepSlots] at ht
    split at ht
    · rename_i hcond
      simp only [List.mem_singleton] at ht
      subst ht
      exact ⟨le_refl _, hcond.1, hcond.2, rfl⟩
    · simp at ht
  | cons hd rest ih =>
    intro s t ht
    obtain ⟨b_start, b_end⟩ := hd
    simp only [sweepSlots, List.mem_append] at ht
    rcases ht with ht | ht
    · split at ht
      · rename_i hcond
        simp only [List.mem_singleton] at ht
        subst ht
        exact ⟨le_refl _, hcond.1, hcond.2, rfl⟩
      · simp at ht
    · obtain ⟨h1, h2, h3, h4⟩ := ih (max s b_end) t ht
      exact ⟨le_trans (le_max_left _ _) h1, h2, h3, h4⟩

theorem sweepSlots_pairwise (d wE : Int) :
    ∀ (busy : List (Int × Int)) (s : Int),
      (∀ p ∈ busy, p.1 ≤ p.2) →
      List.Pairwise (fun p q : Slot => p.stop ≤ q.start) (sweepSlots d wE s busy) := by
  intro busy
  induction busy with
  | nil =>
    intro s _
    simp only [sweepSlots]
    split
    · exact List.pairwise_singleton _ _
    · exact List.Pairwise.nil
  | cons hd rest ih =>
    intro s hwf
    obtain ⟨b_start, b_end⟩ := hd
    have hbe : b_start ≤ b_end := hwf (b_start, b_end) (List.mem_cons_self _ _)
    have hwf' : ∀ p ∈ rest, p.1 ≤ p.2 := fun p hp => hwf p (List.mem_cons_of_mem _ hp)
    simp only [sweepSlots]
    apply List.pairwise_append.mpr
    refine ⟨?_, ih (max s b_end) hwf', ?_⟩
    · split
      · exact List.pairwise_singleton _ _
      · exact List.Pairwise.nil
    · intro a ha b hb
      have hbnd := sweepSlots_mem_bounds d wE rest (max s b_end) b hb
      split at ha
      · simp only [List.mem_singleton] at ha
        subst ha
        have : b_end ≤ b.start := le_trans (le_max_right s b_end) hbnd.1
        exact le_trans hbe this
      · simp at ha

theorem sweepSlots_no_overlap (d wE : Int) :
    ∀ (busy : List (Int × Int)) (s : Int),
      (∀ p ∈ busy, p.1 ≤ p.2) →
      List.Pairwise (fun a b : Int × Int => a.1 ≤ b.1) busy →
      ∀ t ∈ sweepSlots d wE s busy, ∀ b ∈ busy, ¬ (t.start < b.2 ∧ b.1 < t.stop) := by
  intro busy
  induction busy with
  | nil =>
    intro s _ _ t _ b hb
    simp at hb
  | cons hd rest ih =>
    intro s hwf hsorted t ht b hb
    obtain ⟨b_start, b_end⟩ := hd
    have hwf' : ∀ p ∈ rest, p.1 ≤ p.2 := fun p hp => hwf p (List.mem_cons_of_mem _ hp)
    have hsorted' := List.Pairwise.of_cons hsorted
    have hhead : ∀ p ∈ rest, b_start ≤ p.1 := by
      intro p hp
      exact (List.pairwise_cons.mp hsorted).1 p hp
    simp only [sweepSlots, List.mem_append] at ht
    rcases ht with ht | ht
    · -- the slot emitted before the head busy interval
      split at ht
      · simp only [List.mem_singleton] at ht
        subst ht
        rcases List.mem_cons.mp hb with hb | hb
        · -- against the head busy interval: slot stops exactly at b_start
          rw [hb]
          rintro ⟨_, habs⟩
          exact lt_irrefl _ habs
        · -- against a later busy interval: its start is ≥ b_start
          rintro ⟨_, habs⟩
          exact absurd habs (not_lt.mpr (hhead b hb))
      · simp at ht
    · rcases List.mem_cons.mp hb with hb | hb
      · -- slots from the recursive call start at or after b_end
        have hbnd := sweepSlots_mem_bounds d wE rest (max s b_end) t ht
        have : b_end ≤ t.start := le_trans (le_max_right s b_end) hbnd.1
        rw [hb]
        rintro ⟨habs, _⟩
        exact absurd habs (not_lt.mpr this)
      · exact ih (max s b_end) hwf' hsorted' t ht b hb

/-- C1: for every search window, busy-interval list and requested duration,
the slots returned by `find_available_slots` all have length at least the
requested duration, are pairwise disjoint, are ordered by start strictly
ascending, and none overlaps any busy interval (overlap of half-open
intervals: `slot.start < b.end ∧ b.start < slot.stop`). The busy intervals
are assumed well-formed (`start ≤ end`), as the data model requires. -/
theorem find_available_slots_spec (d wS wE : Int) (busy : List (Int × Int))
    (hwf : ∀ p ∈ busy, p.1 ≤ p.2) :
    (∀ t ∈ find_available_slots d wS wE busy, d ≤ t.stop - t.start ∧ t.start < t.stop) ∧
    List.Pairwise (fun p q : Slot => p.stop ≤ q.start) (find_available_slots d wS wE busy) ∧
    List.Pairwise (fun p q : Slot => p.start < q.start) (find_available_slots d wS wE busy) ∧
    (∀ t ∈ find_available_slots d wS wE busy, ∀ b ∈ busy,
      ¬ (t.start < b.2 ∧ b.1 < t.stop)) := by
  have hwfs : ∀ p ∈ busy.mergeSort (fun a b => decide (a.1 ≤ b.1)), p.1 ≤ p.2 := by
    intro p hp
    exact hwf p (List.mem_mergeSort.mp hp)
  have hsorted : List.Pairwise (fun a b : Int × Int => a.1 ≤ b.1)
      (busy.mergeSort (fun a b => decide (a.1 ≤ b.1))) := by
    have := @List.sorted_mergeSort (Int × Int) (fun a b => decide (a.1 ≤ b.1))
      (fun a b c hab hbc => by
        simp only [decide_eq_true_eq] at *
        exact le_trans hab hbc)
      (fun a b => by
        simp only [Bool.or_eq_true, decide_eq_true_eq]
        exact le_total _ _)
      busy
    exact this.imp (fun h => by simpa using h)
  refine ⟨?_, ?_, ?_, ?_⟩
  · intro t ht
    have := sweepSlots_mem_bounds d wE _ wS t ht
    exact ⟨this.2.2.1, this.2.1⟩
  · exact sweepSlots_pairwise d wE _ wS hwfs
  · have hpw := sweepSlots_pairwise d wE _ wS hwfs
    exact hpw.imp_of_mem (fun {p q} hp _ hle =>
      lt_of_lt_of_le (sweepSlots_mem_bounds d wE _ wS p hp).2.1 hle)
  · intro t ht b hb
    exact sweepSlots_no_overlap d wE _ wS hwfs hsorted t ht b
      (List.mem_mergeSort.mpr hb)

/-- Witness for C1 at a concrete window, duration and (unsorted) busy list. -/
theorem find_available_slots_spec_witness :
    (∀ t ∈ find_available_slots 15 0 100 [(30, 40), (10, 20)],
        15 ≤ t.stop - t.start ∧ t.start < t.stop) ∧
    List.Pairwise (fun p q : Slot => p.stop ≤ q.start)
      (find_available_slots 15 0 100 [(30, 40), (10, 20)]) ∧
    List.Pairwise (fun p q : Slot => p.start < q.start)
      (find_available_slots 15 0 100 [(30, 40), (10, 20)]) ∧
    (∀ t ∈ find_available_slots 15 0 100 [(30, 40), (10, 20)],
        ∀ b ∈ [((30 : Int), (40 : Int)), (10, 20)], ¬ (t.start < b.2 ∧ b.1 < t.stop)) :=
  find_available_slots_spec 15 0 100 [(30, 40), (10, 20)] (by decide)

/-- C3: with no busy intervals, `find_available_slots` returns the single
slot `[window_start, window_end)` when the window is at least the requested
(positive) duration long, and no slots otherwise. -/
theorem find_available_slots_empty_busy (d wS wE : Int) (hd : 0 < d) :
    (d ≤ wE - wS → find_available_slots d wS wE [] = [⟨wS, wE, d⟩]) ∧
    (wE - wS < d → find_available_slots d wS wE [] = []) := by
  constructor
  · intro hfit
    simp only [find_available_slots, List.mergeSort_nil, sweepSlots]
    rw [if_pos ⟨by omega, by omega⟩]
  · intro hsmall
    simp only [find_available_slots, List.mergeSort_nil, sweepSlots]
    rw [if_neg (by omega)]

/-- Witness for C3: a 60-minute empty window fits a 30-minute request as the
single full-window slot, and does not fit a 90-minute request. -/
theorem find_available_slots_empty_busy_witness :
    find_available_slots 30 0 60 [] = [⟨0, 60, 30⟩] ∧
    find_available_slots 90 0 60 [] = [] :=
  ⟨(find_available_slots_empty_busy 30 0 60 (by decide)).1 (by decide),
   (find_available_slots_empty_busy 90 0 60 (by decide)).2 (by decide)⟩

/-- C10: every returned slot's `duration_minutes` field equals the requested
`duration_minutes` argument, not the slot's actual length; the concrete
conjunct exhibits a slot whose actual length (100) strictly exceeds the
value (30) reported in the field. -/
theorem slot_duration_field_is_request (d wS wE : Int) (busy : List (Int × Int)) :
    (∀ t ∈ find_available_slots d wS wE busy, t.duration_minutes = d) ∧
    (∃ t, t ∈ find_available_slots 30 0 100 [] ∧
      t.duration_minutes = 30 ∧ 30 < t.stop - t.start) := by
  constructor
  · intro t ht
    exact (sweepSlots_mem_bounds d wE _ wS t ht).2.2.2
  · have h : find_available_slots 30 0 100 [] = [⟨0, 100, 30⟩] := by
      simp only [find_available_slots, List.mergeSort_nil, sweepSlots]
      rw [if_pos (by decide)]
    exact ⟨⟨0, 100, 30⟩, by rw [h]; exact List.mem_singleton.mpr rfl, by decide, by decide⟩

/-- C2: every mutating operation invoked with `confirmed=false` leaves the
backend unchanged and returns a status among `pending_confirmation`,
`conflict_detected`, `no_events_found`, `multiple_events_found`. -/
theorem unconfirmed_never_mutates :
    ∀ (b : Backend) (sI eI : Int) (sm ds : String) (att : List String)
      (skip : Bool) (nid : Nat) (nm : String) (tMin tMax : Int)
      (osI oeI : Option Int) (osm ods : Option String) (oatt : Option (List String)),
      ((create_calendar_event b sI eI sm ds att false skip nid).1 = b ∧
        (create_calendar_event b sI eI sm ds att false skip nid).2 ∈
          [Status.pending_confirmation, .conflict_detected, .no_events_found,
            .multiple_events_found]) ∧
      ((delete_event_by_name_and_date b nm tMin tMax false).1 = b ∧
        (delete_event_by_name_and_date b nm tMin tMax false).2 ∈
          [Status.pending_confirmation, .conflict_detected, .no_events_found,
            .multiple_events_found]) ∧
      ((update_event_by_name_and_date b nm tMin tMax osI oeI osm ods oatt false).1 = b ∧
        (update_event_by_name_and_date b nm tMin tMax osI oeI osm ods oatt false).2 ∈
          [Status.pending_confirmation, .conflict_detected, .no_events_found,
            .multiple_events_found]) := by
  intro b sI eI sm ds att skip nid nm tMin tMax osI oeI osm ods oatt
  refine ⟨⟨?_, ?_⟩, ⟨?_, ?_⟩, ⟨?_, ?_⟩⟩ <;>
    simp only [create_calendar_event, delete_event_by_name_and_date,
      update_event_by_name_and_date, Bool.not_false, if_true] <;>
    split <;> simp

/-- C6 counterexample: with backend events "Team Meeting" and
"Team Meeting Prep" in the window, the query "Team Meeting Prep" does not
return exactly one event: bidirectional matching also accepts the event
titled "Team Meeting" (title contained in the query), so both are returned. -/
theorem locator_prep_query_not_singleton :
    (find_events_by_name_and_date teamBackend "Team Meeting Prep" 0 10000).length ≠ 1 ∧
    find_events_by_name_and_date teamBackend "Team Meeting Prep" 0 10000 =
      [teamMeeting, teamMeetingPrep] := by decide

/-- C6 amended: under case-insensitive bidirectional substring matching,
both the query "Team Meeting" and the query "Team Meeting Prep" return both
events, so the gateway reports `multiple_events_found` in both cases. -/
theorem locator_bidirectional_match_amended :
    find_events_by_name_and_date teamBackend "Team Meeting" 0 10000 =
      [teamMeeting, teamMeetingPrep] ∧
    find_events_by_name_and_date teamBackend "Team Meeting Prep" 0 10000 =
      [teamMeeting, teamMeetingPrep] ∧
    (delete_event_by_name_and_date teamBackend "Team Meeting" 0 10000 false).2 =
      Status.multiple_events_found ∧
    (delete_event_by_name_and_date teamBackend "Team Meeting Prep" 0 10000 false).2 =
      Status.multiple_events_found := by decide

/-- C8: the conflict test of `check_time_slot_availability` is the strict
overlap predicate `event.start < proposed.end AND event.end > proposed.start`;
concretely, proposed `[10:00,11:00)` conflicts with existing `[10:30,10:45)`
and proposed `[10:00,10:30)` does not conflict with existing `[10:30,11:00)`
(times in minutes of the day). -/
theorem check_time_slot_availability_overlap_test :
    (∀ (b : Backend) (rs re : Int) (e : CalEvent),
        e ∈ (check_time_slot_availability b rs re).conflicting_events ↔
          e ∈ b.events ∧ (e.start < re ∧ e.stop > rs)) ∧
    (check_time_slot_availability ⟨[⟨1, "Existing", "", 630, 645, []⟩]⟩ 600 660).available
      = false ∧
    (check_time_slot_availability ⟨[⟨1, "Existing", "", 630, 660, []⟩]⟩ 600 630).available
      = true := by
  refine ⟨?_, by decide, by decide⟩
  intro b rs re e
  simp [check_time_slot_availability, List.mem_filter]

/-- Witness for C10 at a concrete window and busy list. -/
theorem slot_duration_field_is_request_witness :
    (∀ t ∈ find_available_slots 45 0 300 [(50, 120)], t.duration_minutes = 45) ∧
    (∃ t, t ∈ find_available_slots 30 0 100 [] ∧
      t.duration_minutes = 30 ∧ 30 < t.stop - t.start) :=
  slot_duration_field_is_request 45 0 300 [(50, 120)]

/-- C4: on a fixed date, "2 PM" and "14:00" parse to the same instant,
"12 AM" parses to hour 0 and "12 PM" to hour 12, an omitted minute
defaults to 0, and the numeric ranges are enforced: a 24-hour match parses
successfully iff hour is 0-23 and minute 0-59, a 12-hour match iff hour is
1-12 (and minute 0-59), any out-of-range value raising the
invalid-time-format error. -/
theorem time_parse_properties :
    parse_time_nl "2 PM" = parse_time_nl "14:00" ∧
    parse_time_nl "12 AM" = .ok (0, 0) ∧
    parse_time_nl "12 PM" = .ok (12, 0) ∧
    parse_time_nl "3 pm" = .ok (15, 0) ∧
    (∀ (s : String) (h m : Nat), match24 (normTime s) = some (h, m) →
      ((h ≤ 23 ∧ m ≤ 59) → parse_time_nl s = .ok (h, m)) ∧
      (¬ (h ≤ 23 ∧ m ≤ 59) →
        parse_time_nl s = .error (.invalidTimeFormat (normTime s)))) ∧
    (∀ (s : String) (h : Nat) (mo : Option Nat) (pm : Bool),
      match24 (normTime s) = none → match12 (normTime s) = some (h, mo, pm) →
      ((1 ≤ h ∧ h ≤ 12 ∧ mo.getD 0 ≤ 59) →
        parse_time_nl s = .ok (convert12 h pm, mo.getD 0)) ∧
      (¬ (1 ≤ h ∧ h ≤ 12 ∧ mo.getD 0 ≤ 59) →
        parse_time_nl s = .error (.invalidTimeFormat (normTime s)))) := by
  refine ⟨rfl, rfl, rfl, rfl, ?_, ?_⟩
  · intro s h m hm
    constructor
    · intro hr
      simp only [parse_time_nl, hm]
      rw [if_neg (by omega)]
    · intro hr
      simp only [parse_time_nl, hm]
      rw [if_pos (by omega)]
  · intro s h mo pm h24 h12
    constructor
    · intro hr
      simp only [parse_time_nl, h24, h12]
      rw [if_neg (by omega)]
    · intro hr
      simp only [parse_time_nl, h24, h12]
      rw [if_pos (by omega)]

/-- Witness for C4's range clauses at concrete out-of-range inputs. -/
theorem time_parse_properties_witness :
    parse_time_nl "25:00" = .error (.invalidTimeFormat (normTime "25:00")) ∧
    parse_time_nl "0 pm" = .error (.invalidTimeFormat (normTime "0 pm")) ∧
    parse_time_nl "10:75" = .error (.invalidTimeFormat (normTime "10:75")) ∧
    parse_time_nl "13 pm" = .error (.invalidTimeFormat (normTime "13 pm")) :=
  ⟨(time_parse_properties.2.2.2.2.1 "25:00" 25 0 rfl).2 (by decide),
   (time_parse_properties.2.2.2.2.2 "0 pm" 0 none true rfl rfl).2 (by decide),
   (time_parse_properties.2.2.2.2.1 "10:75" 10 75 rfl).2 (by decide),
   (time_parse_properties.2.2.2.2.2 "13 pm" 13 none true rfl rfl).2 (by decide)⟩

/-- C5 counterexample: the date resolver inside
`parse_time_from_natural_language` has no "this <weekday>" branch, so with
today = Wednesday the phrase "this wednesday" is unrecognized and the
target date falls back to today (offset 0), not today + 7 days as the
claim states for every cited resolver. -/
theorem this_wednesday_timefn_counterexample :
    parse_time_target_days_ahead 2 "this wednesday" = some 0 ∧
    parse_time_target_days_ahead 2 "this wednesday" ≠ some 7 := by decide

/-- C5 amended: with today = Wednesday, the listing/locator resolver maps
"wednesday" to today, "next wednesday" to +7 days and "this wednesday" to
+7 days; the resolver inside `parse_time_from_natural_language` also maps
"wednesday" to today and "next wednesday" to +7 days, but it has no "this"
branch, so "this wednesday" falls back to today (offset 0). -/
theorem weekday_resolution_amended :
    parse_date_string_listcal 2 "wednesday" = .offset 0 ∧
    parse_date_string_listcal 2 "next wednesday" = .offset 7 ∧
    parse_date_string_listcal 2 "this wednesday" = .offset 7 ∧
    parse_date_string_timefn 2 "wednesday" = .offset 0 ∧
    parse_date_string_timefn 2 "next wednesday" = .offset 7 ∧
    parse_time_target_days_ahead 2 "this wednesday" = some 0 := by decide

/-- C7: an operation that always raises a transient-transport error is
attempted exactly 3 times, with linearly increasing delays (delay*1 then
delay*2) slept between attempts, and yields the structured
`connection_error` result instead of raising; a non-transient error on the
first attempt propagates immediately, with no retry and no sleep. -/
theorem safe_api_call_retry_bound {α : Type} (f : Nat → Except String α) (d : ℚ) :
    ((∀ k, ∃ e, f k = .error e ∧ isTransientError e = true) →
      safe_api_call f 3 d = (.connectionError, 3, [d * 1, d * 2])) ∧
    (∀ e, f 0 = .error e → isTransientError e = false →
      safe_api_call f 3 d = (.raised e, 1, [])) := by
  constructor
  · intro h
    obtain ⟨e0, he0, ht0⟩ := h 0
    obtain ⟨e1, he1, ht1⟩ := h 1
    obtain ⟨e2, he2, ht2⟩ := h 2
    simp only [safe_api_call, safe_api_call_loop, he0, ht0, he1, ht1, he2, ht2]
    norm_num
  · intro e he ht
    simp only [safe_api_call, safe_api_call_loop, he, ht]
    norm_num

/-- Witness for C7 with an always-transient operation and a non-transient
one. -/
theorem safe_api_call_retry_bound_witness :
    safe_api_call (fun _ => (Except.error "websocket closed" : Except String Unit)) 3 1 =
      (.connectionError, 3, [1 * 1, 1 * 2]) ∧
    safe_api_call (fun _ => (Except.error "Event not found" : Except String Unit)) 3 1 =
      (.raised "Event not found", 1, []) :=
  ⟨(safe_api_call_retry_bound (fun _ => (Except.error "websocket closed" : Except String Unit)) 1).1
      (fun _ => ⟨"websocket closed", rfl, by decide⟩),
   (safe_api_call_retry_bound (fun _ => (Except.error "Event not found" : Except String Unit)) 1).2
      "Event not found" rfl (by decide)⟩

/-- C9 counterexample: `datetime.replace(hour=...)` keeps the window
start's minutes (and smaller fields), so a window starting at 09:45 with
preference "morning" becomes 08:45-12:45, not exactly 08:00-12:00. -/
theorem time_pref_not_exact_counterexample :
    apply_time_pref "morning" ⟨0, 9, 45, 0, 0⟩ ⟨0, 20, 0, 0, 0⟩ =
      (⟨0, 8, 45, 0, 0⟩, ⟨0, 12, 45, 0, 0⟩) ∧
    apply_time_pref "morning" ⟨0, 9, 45, 0, 0⟩ ⟨0, 20, 0, 0, 0⟩ ≠
      (⟨0, 8, 0, 0, 0⟩, ⟨0, 12, 0, 0, 0⟩) := by decide

/-- C9 amended: a textual time preference rewrites only the hour fields on
the window's existing start day - morning sets start hour 8 and end hour
12, afternoon 12 and 17, evening 17 and 20 - carrying the start's minute,
second and microsecond into both bounds; the window is exactly
08:00-12:00 / 12:00-17:00 / 17:00-20:00 only when the start's sub-hour
fields are zero. -/
theorem time_pref_rewrites_hours (ws we : PyDateTime) :
    apply_time_pref "morning" ws we =
      (⟨ws.day, 8, ws.minute, ws.second, ws.microsecond⟩,
        ⟨ws.day, 12, ws.minute, ws.second, ws.microsecond⟩) ∧
    apply_time_pref "afternoon" ws we =
      (⟨ws.day, 12, ws.minute, ws.second, ws.microsecond⟩,
        ⟨ws.day, 17, ws.minute, ws.second, ws.microsecond⟩) ∧
    apply_time_pref "evening" ws we =
      (⟨ws.day, 17, ws.minute, ws.second, ws.microsecond⟩,
        ⟨ws.day, 20, ws.minute, ws.second, ws.microsecond⟩) ∧
    (ws.minute = 0 → ws.second = 0 → ws.microsecond = 0 →
      apply_time_pref "morning" ws we =
        (⟨ws.day, 8, 0, 0, 0⟩, ⟨ws.day, 12, 0, 0, 0⟩)) := by
  have hm : apply_time_pref "morning" ws we =
      (⟨ws.day, 8, ws.minute, ws.second, ws.microsecond⟩,
        ⟨ws.day, 12, ws.minute, ws.second, ws.microsecond⟩) := rfl
  exact ⟨hm, rfl, rfl, fun h1 h2 h3 => by rw [hm, h1, h2, h3]⟩

/-- Witness for C9's zero-sub-hour clause at a concrete window. -/
theorem time_pref_rewrites_hours_witness :
    apply_time_pref "morning" ⟨5, 9, 0, 0, 0⟩ ⟨5, 20, 0, 0, 0⟩ =
      (⟨5, 8, 0, 0, 0⟩, ⟨5, 12, 0, 0, 0⟩) :=
  (time_pref_rewrites_hours ⟨5, 9, 0, 0, 0⟩ ⟨5, 20, 0, 0, 0⟩).2.2.2 rfl rfl rfl

end Scheduler
